import Mathlib

/-!
Verification of the CBOR diagnostic-notation pretty printer
(`external/iotivity/.../tinycbor/src/cborpretty.c`) of the TizenRT tree.

The formatter is embedded shallowly: byte buffers become `List Nat`
(each entry a byte value), the output sink becomes an accumulated
`String`, and the C error codes become the inductive `CborErr`.
`fprintf` conversions such as the decimal and hexadecimal renderings are
provided by the platform C library, which is part of the repository but
not of the sources under study; those rendering primitives are modelled
from the specification (each is marked below).
-/

namespace CborPretty

/-- Error codes of the formatter, from `cbor.h` (external header): the
subset that `cborpretty.c` can produce.  `oobRead` is not a C error
code: it marks an execution in which the code dereferences the
duplicated string buffer past its end, which is undefined behavior in
the C source; the embedding aborts there. -/
inductive CborErr where
  | io
  | invalidUtf8TextString
  | unknownType
  | oobRead
  deriving DecidableEq, Repr

/-- Modelled from the spec: an upper-case hexadecimal digit as produced
by the platform printf under the `%X` conversion. -/
def hexDigitU (n : Nat) : Char :=
  Char.ofNat (if n < 10 then 48 + n else 55 + n)

/-- Modelled from the spec: a lower-case hexadecimal digit as produced
by the platform printf under the `%x` conversion. -/
def hexDigitL (n : Nat) : Char :=
  Char.ofNat (if n < 10 then 48 + n else 87 + n)

/-- Modelled from the spec: the four-digit upper-case rendering of the
`"%04" PRIX32` conversion used for the `\uXXXX` escapes (spec 4.3). -/
def hex4 (n : Nat) : String :=
  String.mk [hexDigitU (n / 4096 % 16), hexDigitU (n / 256 % 16),
             hexDigitU (n / 16 % 16), hexDigitU (n % 16)]

/-- Modelled from the spec: the two-digit lower-case rendering of the
`"%02" PRIx8` conversion used by `hexDump` (spec 4.3: two lowercase hex
digits per byte). -/
def hex2 (b : Nat) : String :=
  String.mk [hexDigitL (b / 16 % 16), hexDigitL (b % 16)]

/-- Modelled from the spec: unsigned decimal rendering of the
`"%" PRIu64` conversion (spec 4.4: decimal rendering of the raw
magnitude). -/
def decimal (n : Nat) : String := Nat.repr n

/-- The apostrophe character, kept out of string literals. -/
def squote : String := String.singleton (Char.ofNat 39)

/-- `hexDump` (cborpretty.c lines 46-55): two lowercase hex digits per
byte of the buffer.  The sink is pure here, so the `fprintf` failure
branch cannot fire. -/
def hexDump (buffer : List Nat) : String :=
  String.join (buffer.map hex2)

/-- Continuation-byte test from cborpretty.c lines 141/150/159:
`(b & 0xc0) == 0x80`. -/
def contOk (b : Nat) : Bool :=
  b &&& 0xC0 == 0x80

/-- Leading-byte classification of the multi-byte decoder,
cborpretty.c lines 106-134.  Returns `(charsNeeded, min_uc, uc)` where
`uc` is the masked leading byte, or `none` for
`CborErrorInvalidUtf8TextString`. -/
def classifyLead (uc : Nat) : Option (Nat × Nat × Nat) :=
  if uc ≤ 0xC1 then none
  else if uc < 0xE0 then some (2, 0x80, uc &&& 0x1F)
  else if uc < 0xF0 then some (3, 0x800, uc &&& 0x0F)
  else if uc < 0xF5 then some (4, 0x10000, uc &&& 0x07)
  else none

/-- Escape-table of the ASCII path, cborpretty.c lines 77-99: the
character printed after the backslash, or `none` for the
`goto print_utf16` default. -/
def shortEscape (uc : Nat) : Option Char :=
  if uc = 34 then some (Char.ofNat 34)        -- case '"'
  else if uc = 92 then some (Char.ofNat 92)   -- case '\\'
  else if uc = 8 then some (Char.ofNat 98)    -- case '\b': 'b'
  else if uc = 12 then some (Char.ofNat 102)  -- case '\f': 'f'
  else if uc = 10 then some (Char.ofNat 110)  -- case '\n': 'n'
  else if uc = 13 then some (Char.ofNat 114)  -- case '\r': 'r'
  else if uc = 9 then some (Char.ofNat 116)   -- case '\t': 't'
  else none

/-- The surrogate test of cborpretty.c line 167, `uc - 0xd800U < 2048U`,
with the `uint32_t` wrap-around of the subtraction made explicit. -/
def surrogateHit (uc : Nat) : Bool :=
  (uc + (4294967296 - 0xD800)) % 4294967296 < 2048

/-- Result of `utf8EscapedDump`: the C `int` return value together with
the text written to the sink up to that point.  `oob` marks a read past
the end of the provided buffer (undefined behavior in C). -/
inductive DumpResult where
  | ok (out : String)
  | invalidUtf8 (out : String)
  | oob (out : String)
  deriving DecidableEq, Repr

/-- Result of reading the continuation bytes (cborpretty.c
lines 139-164): out-of-bounds read, invalid continuation byte, or the
accumulated code point with the next read position. -/
inductive ContRes where
  | oob
  | bad
  | ok (uc : Nat) (pos : Nat)
  deriving DecidableEq, Repr

/-- The continuation-byte reads of cborpretty.c lines 139-164: for each
needed byte, `uc <<= 6; uc |= b & 0x3f` after the `(b & 0xc0) == 0x80`
check. -/
def readConts (buffer : List Nat) : Nat → Nat → Nat → ContRes
  | pos, 0, uc => ContRes.ok uc pos
  | pos, cnt + 1, uc =>
    match buffer[pos]? with
    | none => ContRes.oob
    | some b =>
      if contOk b then readConts buffer (pos + 1) cnt (uc * 64 + (b &&& 0x3F))
      else ContRes.bad

/-- The `while (n--)` loop of `utf8EscapedDump`, cborpretty.c
lines 62-186.  `pos` is the offset of the C `buffer` pointer and `n`
the remaining loop counter.  Note the loop decrements `n` once per
iteration only: the source never deducts the continuation bytes
consumed by a multi-byte sequence (upstream tinycbor has
`n -= charsNeeded - 1;` here), so `pos` advances faster than `n`
falls. -/
def utf8Loop (buffer : List Nat) : Nat → Nat → String → DumpResult
  | _, 0, acc => DumpResult.ok acc
  | pos, n + 1, acc =>
    match buffer[pos]? with
    | none => DumpResult.oob acc
    | some uc =>
      if uc < 0x80 then
        -- single-byte UTF-8 (lines 65-103)
        if uc < 0x7F ∧ 0x20 ≤ uc ∧ uc ≠ 92 ∧ uc ≠ 34 then
          utf8Loop buffer (pos + 1) n (acc.push (Char.ofNat uc))
        else
          match shortEscape uc with
          | some c => utf8Loop buffer (pos + 1) n ((acc.push (Char.ofNat 92)).push c)
          | none => utf8Loop buffer (pos + 1) n (acc ++ "\\u" ++ hex4 uc)
      else
        -- multi-byte UTF-8 (lines 105-185)
        match classifyLead uc with
        | none => DumpResult.invalidUtf8 acc
        | some (charsNeeded, minUc, uc0) =>
          if n < charsNeeded - 1 then DumpResult.invalidUtf8 acc
          else
            match readConts buffer (pos + 1) (charsNeeded - 1) uc0 with
            | ContRes.oob => DumpResult.oob acc
            | ContRes.bad => DumpResult.invalidUtf8 acc
            | ContRes.ok cp pos2 =>
              -- overlong sequence? surrogate pair? out of range? (line 167)
              if cp < minUc ∨ surrogateHit cp ∨ cp > 0x10FFFF then
                DumpResult.invalidUtf8 acc
              else if charsNeeded > 3 then
                -- needs surrogate pairs (lines 171-178)
                utf8Loop buffer pos2 n
                  (acc ++ "\\u" ++ hex4 ((cp >>> 10) + 0xD7C0) ++ "\\u" ++ hex4 (cp % 0x400 + 0xDC00))
              else
                -- no surrogate pair needed (lines 181-185)
                utf8Loop buffer pos2 n (acc ++ "\\u" ++ hex4 cp)

/-- `utf8EscapedDump` (cborpretty.c lines 59-188) on a buffer of `n`
readable bytes.  The sink is pure, so the `CborErrorIO` branches cannot
fire; the C `CborErrorInvalidUtf8TextString` return becomes
`DumpResult.invalidUtf8`. -/
def utf8EscapedDump (buffer : List Nat) (n : Nat) : DumpResult :=
  utf8Loop buffer 0 n ""

/-- The value of a code point rebuilt by the continuation reads
(`uc <<= 6; uc |= b & 0x3f` per byte), for stating properties of
`readConts`. -/
def reconstruct (uc0 : Nat) (bs : List Nat) : Nat :=
  bs.foldl (fun u b => u * 64 + (b &&& 0x3F)) uc0

/-- Whether a dump outcome is the `CborErrorInvalidUtf8TextString`
failure. -/
def isInvalidUtf8 : DumpResult → Bool
  | DumpResult.invalidUtf8 _ => true
  | _ => false

/-- Source width of a floating-point value: the three `CborType` cases
`CborHalfFloatType`, `CborFloatType`, `CborDoubleType` of the merged
float handler (cborpretty.c lines 364-389). -/
inductive FloatWidth where
  | half
  | single
  | double
  deriving DecidableEq, Repr

/-- Modelled from the spec (4.4): the decoded floating-point value,
classified as the platform `fpclassify` of the C library (which is
repository code outside the sources under study) would classify it:
NaN, Infinite, or Finite; a Finite value either has its magnitude
exactly representable as a 64-bit unsigned integer
(`(uint64_t)fabs(val) == fabs(val)`, line 394-395) or carries the
rendering that the platform `%g` conversion would give it
(line 404). -/
inductive FloatVal where
  | nan
  | infinite (neg : Bool)
  | finiteInt (neg : Bool) (mag : Nat)
  | finiteFrac (neg : Bool) (rendered : String)
  deriving DecidableEq, Repr

/-- The display suffix carried by each source width
(cborpretty.c lines 374, 382, 387). -/
def suffixFor : FloatWidth → String
  | FloatWidth.half => "f16"
  | FloatWidth.single => "f"
  | FloatWidth.double => ""

/-- The NaN-or-Infinite test of cborpretty.c lines 390-392.  Modelled
from the spec (4.4): `fpclassify` and its class constants come from the
platform C library, not from the sources under study. -/
def isNanOrInfinite : FloatVal → Bool
  | FloatVal.nan => true
  | FloatVal.infinite _ => true
  | _ => false

/-- Modelled from the spec: the `%g`-style rendering taken by values
that are not integral 64-bit magnitudes (cborpretty.c line 404). -/
def gRender : FloatVal → String
  | FloatVal.nan => "nan"
  | FloatVal.infinite neg => (if neg then "-" else "") ++ "inf"
  | FloatVal.finiteFrac neg s => (if neg then "-" else "") ++ s
  | FloatVal.finiteInt neg mag => (if neg then "-" else "") ++ decimal mag

/-- The float branch of `value_to_pretty` (cborpretty.c lines 364-408):
pick the width suffix, force it empty for NaN or Infinite, then render
integral magnitudes as digits followed by a literal dot and the suffix,
and all other values through the general path followed by the
suffix. -/
def formatFloat (w : FloatWidth) (v : FloatVal) : String :=
  let suffix := suffixFor w
  let suffix := if isNanOrInfinite v then "" else suffix
  match v with
  | FloatVal.finiteInt neg mag =>
    (if neg then "-" else "") ++ decimal mag ++ "." ++ suffix
  | v => gRender v ++ suffix

/-- A decoded CBOR value, as the external Decode Iterator (spec 2, 6)
hands it to the formatter: the `CborType` variants of the
`value_to_pretty` switch, with `CborIntegerType` split by
`cbor_value_is_unsigned_integer` and the three float widths merged into
`float`.  Containers carry their elements and the
`cbor_value_is_length_known` flag; map arity is even by construction
(the iterator's contract, spec 3). -/
inductive CborValue where
  | unsignedInt (v : Nat)
  | negativeInt (raw : Nat)
  | byteString (bs : List Nat)
  | textString (bs : List Nat)
  | array (indefinite : Bool) (elems : List CborValue)
  | map (indefinite : Bool) (pairs : List (CborValue × CborValue))
  | tag (t : Nat) (inner : CborValue)
  | simple (n : Nat)
  | boolean (b : Bool)
  | null
  | undefined
  | float (w : FloatWidth) (v : FloatVal)
  | invalid

/-- The modulus of the C `uint64_t` arithmetic in the integer case. -/
def U64 : Nat := 18446744073709551616

mutual

/-- `value_to_pretty` (cborpretty.c lines 217-419) over the value tree:
the output written to the sink, and the returned error if any.  The
sink is pure (writes cannot fail) and the iterator operations that the
source treats as infallible, or that cannot fail on the well-formed
values the iterator guarantees (`cbor_value_get_*`,
`cbor_value_advance_fixed`, `cbor_value_enter_container`,
`cbor_value_leave_container`, the string duplications), are modelled as
total; the cursor-synchronisation behavior of the container case on
iterator errors is studied separately on `container_case` below.  The
duplicated text buffer is modelled from the spec (6) as exactly the
`n` duplicated bytes. -/
def value_to_pretty : CborValue → String × Option CborErr
  | CborValue.array indefinite elems =>
    -- lines 223-256, CborArrayType
    let marker := if indefinite then "_ " else ""
    let (s, e) := container_to_pretty "" elems
    (match e with
     | some err => ("[" ++ marker ++ s, some err)
     | none => ("[" ++ marker ++ s ++ "]", none))
  | CborValue.map indefinite pairs =>
    -- lines 223-256, CborMapType
    let marker := if indefinite then "_ " else ""
    let (s, e) := container_to_pretty_map "" pairs
    (match e with
     | some err => ("\x7b" ++ marker ++ s, some err)
     | none => ("\x7b" ++ marker ++ s ++ "\x7d", none))
  | CborValue.unsignedInt v =>
    -- lines 258-267
    (decimal v, none)
  | CborValue.negativeInt raw =>
    -- lines 268-285: ++val with unsigned 64-bit overflow
    let val := (raw + 1) % U64
    if val ≠ 0 then ("-" ++ decimal val, none)
    else ("-18446744073709551616", none)
  | CborValue.byteString bs =>
    -- lines 289-300
    ("h" ++ squote ++ hexDump bs ++ squote, none)
  | CborValue.textString bs =>
    -- lines 302-317
    (match utf8EscapedDump bs bs.length with
     | DumpResult.ok s => ("\"" ++ s ++ "\"", none)
     | DumpResult.invalidUtf8 s => ("\"" ++ s, some CborErr.invalidUtf8TextString)
     | DumpResult.oob s => ("\"" ++ s, some CborErr.oobRead))
  | CborValue.tag t inner =>
    -- lines 319-334
    let (s, e) := value_to_pretty inner
    (match e with
     | some err => (decimal t ++ "(" ++ s, some err)
     | none => (decimal t ++ "(" ++ s ++ ")", none))
  | CborValue.simple n =>
    -- lines 336-343
    ("simple(" ++ decimal n ++ ")", none)
  | CborValue.boolean b =>
    -- lines 355-362
    ((if b then "true" else "false"), none)
  | CborValue.null => ("null", none)
  | CborValue.undefined => ("undefined", none)
  | CborValue.float w v => (formatFloat w v, none)
  | CborValue.invalid =>
    -- lines 411-414: print the literal, then fail
    ("invalid", some CborErr.unknownType)

/-- `container_to_pretty` (cborpretty.c lines 191-215) for an array:
`comma` is the separator variable of the C loop, `""` on entry and
`", "` from the second element on; the first error aborts with the
output written so far. -/
def container_to_pretty (comma : String) : List CborValue → String × Option CborErr
  | [] => ("", none)
  | v :: vs =>
    let (s, e) := value_to_pretty v
    (match e with
     | some err => (comma ++ s, some err)
     | none =>
       let (s2, e2) := container_to_pretty ", " vs
       (comma ++ s ++ s2, e2))

/-- `container_to_pretty` (cborpretty.c lines 191-215) for a map: after
each key the loop writes `": "` and formats the paired value. -/
def container_to_pretty_map (comma : String) : List (CborValue × CborValue) → String × Option CborErr
  | [] => ("", none)
  | (k, v) :: ps =>
    let (sk, ek) := value_to_pretty k
    (match ek with
     | some err => (comma ++ sk, some err)
     | none =>
       let (sv, ev) := value_to_pretty v
       match ev with
       | some err => (comma ++ sk ++ ": " ++ sv, some err)
       | none =>
         let (s2, e2) := container_to_pretty_map ", " ps
         (comma ++ sk ++ ": " ++ sv ++ s2, e2))

end

mutual

/-- Whether a value, or one of its descendants, is of
`CborInvalidType`. -/
def containsInvalid : CborValue → Bool
  | CborValue.array _ elems => containsInvalidList elems
  | CborValue.map _ pairs => containsInvalidPairs pairs
  | CborValue.tag _ inner => containsInvalid inner
  | CborValue.invalid => true
  | _ => false

def containsInvalidList : List CborValue → Bool
  | [] => false
  | v :: vs => containsInvalid v || containsInvalidList vs

def containsInvalidPairs : List (CborValue × CborValue) → Bool
  | [] => false
  | (k, v) :: ps => containsInvalid k || containsInvalid v || containsInvalidPairs ps

end

/-! ### Cursor synchronisation of the container case

The array/map case of `value_to_pretty` (cborpretty.c lines 223-256)
manipulates the caller's `CborValue *it` and a local `CborValue
recursed`.  The iterator operations themselves are external (spec 2:
the Decode Iterator is given, not built here), so they appear as
parameters; what is embedded is the error plumbing of the source:
`it->ptr = recursed.ptr` on an `enter` or `container_to_pretty`
failure, and no such assignment on a `leave` failure. -/

/-- The fields of the C `CborValue` cursor that the container case
touches: `ptr`, and everything else (`parser`, `type`, `flags`,
`extra`) abstracted into `rest`, which `it->ptr = recursed.ptr` leaves
alone. -/
structure CborIt where
  ptr : Nat
  rest : Nat
  deriving DecidableEq, Repr

/-- The recursive-container case of `value_to_pretty`, cborpretty.c
lines 237-251: `enter` is the outcome of
`cbor_value_enter_container(it, &recursed)` (the produced `recursed`
cursor and the returned error), `walk` the effect of
`container_to_pretty` on `recursed`, and `leave` the outcome of
`cbor_value_leave_container(it, &recursed)` (the returned error, and
the updated `it` on success). -/
def container_case (it : CborIt)
    (enter : CborIt × Option CborErr)
    (walk : CborIt → CborIt × Option CborErr)
    (leave : CborIt → CborIt → Option CborErr × CborIt) :
    CborIt × Option CborErr :=
  match enter with
  | (recursed, some err) => ({ it with ptr := recursed.ptr }, some err)
  | (recursed, none) =>
    match walk recursed with
    | (recursed2, some err) => ({ it with ptr := recursed2.ptr }, some err)
    | (recursed2, none) =>
      match leave it recursed2 with
      | (some err, _) => (it, some err)
      | (none, it2) => (it2, none)

/-! ### Buffer release in the string handlers

The byte-string and text-string cases of `value_to_pretty`
(cborpretty.c lines 289-317) own the buffer duplicated by
`cbor_value_dup_byte_string` / `cbor_value_dup_text_string` and must
`free` it on every exit path.  The embedding records an event trace:
one `write` event per `fprintf` call, one `free` event per `free`
call.  The sink is adversarial: `sink i` tells whether the handler's
`i`-th write succeeds. -/

/-- An observable event of a string handler. -/
inductive HEv where
  | write
  | free
  deriving DecidableEq, Repr

/-- `hexDump` (cborpretty.c lines 46-55) under a failing sink: one
write per byte, stopping at the first failed `fprintf`; returns the
trace, the next write index and whether all writes succeeded. -/
def hexDumpT (sink : Nat → Bool) : Nat → List Nat → List HEv × Nat × Bool
  | idx, [] => ([], idx, true)
  | idx, _ :: bs =>
    if sink idx then
      let (t, idx2, ok) := hexDumpT sink (idx + 1) bs
      (HEv.write :: t, idx2, ok)
    else ([HEv.write], idx + 1, false)

/-- The `CborByteStringType` case, cborpretty.c lines 289-300:
`bool failed = fprintf(out, "h'") < 0 || hexDump(out, buffer, n) < 0 ||
fprintf(out, "'") < 0; free(buffer); return failed ? CborErrorIO :
CborNoError;` with the `||` short-circuit kept.  On a `dup` failure the
handler returns before any buffer exists. -/
def byte_string_case (sink : Nat → Bool) (dup : Except CborErr (List Nat)) :
    List HEv × Option CborErr :=
  match dup with
  | Except.error e => ([], some e)
  | Except.ok buffer =>
    let ok1 := sink 0
    let (t2, idx2, ok2) :=
      if ok1 then hexDumpT sink 1 buffer else ([], 1, true)
    let (t3, ok3) :=
      if ok1 && ok2 then ([HEv.write], sink idx2) else ([], true)
    let failed := !(ok1 && ok2 && ok3)
    (HEv.write :: t2 ++ t3 ++ [HEv.free],
     if failed then some CborErr.io else none)

/-- The `CborTextStringType` case, cborpretty.c lines 302-317: the
opening quote, then `utf8EscapedDump` (whose written text and returned
error are the parameter `dump` — the decoder itself is studied above),
then the closing quote, each step short-circuited by the previous
one's failure; `free(buffer)` runs unconditionally after, and the
decoder's error takes precedence over `CborErrorIO`. -/
def text_string_case (sink : Nat → Bool) (dup : Except CborErr (List Nat))
    (dump : String × Option CborErr) : List HEv × Option CborErr :=
  match dup with
  | Except.error e => ([], some e)
  | Except.ok _ =>
    let ok1 := sink 0
    let (t2, derr) := if ok1 then ([HEv.write], dump.2) else ([], none)
    let (t3, ok3) :=
      if ok1 && derr.isNone then ([HEv.write], sink 1) else ([], true)
    (HEv.write :: t2 ++ t3 ++ [HEv.free],
     match derr with
     | some e => some e
     | none => if !(ok1 && ok3) then some CborErr.io else none)

/-! ### Statements of the claims under study -/

/-- The element-separator grammar as the specification (4.2) words it:
`", "` before every element except the first, no trailing comma.  A
spec-side definition, for comparison with `container_to_pretty`. -/
def specCommaSeparated : List String → String
  | [] => ""
  | [s] => s
  | s :: rest => s ++ ", " ++ specCommaSeparated rest

/-- The leading-byte classification exactly as the claim words it, with
its half-open intervals `[0xC2,0xDF)` and `[0x80,0xBF)` taken
literally: a classification must be one of the three listed forms, and
a continuation byte is accepted exactly when it lies in
`[0x80,0xBF)`. -/
def C1ClaimStated : Prop :=
  (∀ uc : Nat, uc < 256 → (0x80 ≤ uc ∧ uc ≤ 0xC1) → classifyLead uc = none) ∧
  (∀ uc : Nat, uc < 256 → (0xC2 ≤ uc ∧ uc < 0xDF) → classifyLead uc = some (2, 0x80, uc &&& 0x1F)) ∧
  (∀ uc : Nat, uc < 256 → (0xE0 ≤ uc ∧ uc < 0xF0) → classifyLead uc = some (3, 0x800, uc &&& 0x0F)) ∧
  (∀ uc : Nat, uc < 256 → (0xF0 ≤ uc ∧ uc < 0xF5) → classifyLead uc = some (4, 0x10000, uc &&& 0x07)) ∧
  (∀ uc : Nat, uc < 256 → 0xF5 ≤ uc → classifyLead uc = none) ∧
  (∀ uc : Nat, uc < 256 → (0x80 ≤ uc ∧ (classifyLead uc).isSome = true) →
     (0xC2 ≤ uc ∧ uc < 0xDF) ∨ (0xE0 ≤ uc ∧ uc < 0xF0) ∨ (0xF0 ≤ uc ∧ uc < 0xF5)) ∧
  (∀ b : Nat, b < 256 → (contOk b = true ↔ 0x80 ≤ b ∧ b < 0xBF))

/-- The failure characterisation exactly as the claim words it, on a
text string that consists of one (possibly truncated) multi-byte
sequence: `utf8EscapedDump` fails with `InvalidUtf8` exactly when the
input ends before the continuation bytes are consumed, or the
reconstructed code point is overlong, a surrogate, or above
`0x10FFFF`.  (The claim does not list an out-of-range continuation
byte as a cause.) -/
def C2ClaimStated : Prop :=
  ∀ (lead : Nat) (rest : List Nat) (k minUc uc0 : Nat),
    lead < 256 → (∀ b ∈ rest, b < 256) →
    classifyLead lead = some (k, minUc, uc0) →
    rest.length + 1 ≤ k →
    (isInvalidUtf8 (utf8EscapedDump (lead :: rest) (rest.length + 1)) = true ↔
      (rest.length < k - 1 ∨
       ((∀ b ∈ rest, contOk b = true) ∧
        (reconstruct uc0 rest < minUc ∨
         (0xD800 ≤ reconstruct uc0 rest ∧ reconstruct uc0 rest < 0xE000) ∨
         0x10FFFF < reconstruct uc0 rest))))

/-! ## Theorems -/

set_option maxRecDepth 10000

/-- C10: an empty text string formats as the two double quotes with
nothing between them, and an empty byte string as `h` followed by two
apostrophes (`squote`) with nothing between them; both succeed. -/
theorem C10_empty_strings :
    value_to_pretty (CborValue.textString []) = ("\"\"", none) ∧
    value_to_pretty (CborValue.byteString []) = ("h" ++ squote ++ squote, none) := by
  exact ⟨rfl, rfl⟩

/-- C4: a negative integer of raw unsigned magnitude `N` is formatted
as `-` followed by `N + 1` in decimal, except when `N` is the maximal
64-bit unsigned value, where the increment overflows to zero and the
exact literal `-18446744073709551616` is emitted instead. -/
theorem C4_negative_integer (N : Nat) (h : N < U64) :
    value_to_pretty (CborValue.negativeInt N) =
      ((if N = U64 - 1 then "-18446744073709551616" else "-" ++ decimal (N + 1)), none) := by
  by_cases hN : N = U64 - 1
  · subst hN
    have h0 : (U64 - 1 + 1) % U64 = 0 := by norm_num [U64]
    simp [value_to_pretty, h0]
  · have hU : U64 = 18446744073709551616 := rfl
    have h1 : N + 1 < U64 := by omega
    have h0 : (N + 1) % U64 = N + 1 := Nat.mod_eq_of_lt h1
    simp [value_to_pretty, h0, hN]

/-- Witness for C4 at the overflowing input: the raw magnitude
`0xFFFFFFFFFFFFFFFF` formats as the exact literal. -/
theorem C4_witness :
    value_to_pretty (CborValue.negativeInt (U64 - 1)) = ("-18446744073709551616", none) := by
  have h := C4_negative_integer (U64 - 1) (by norm_num [U64])
  simpa using h

/-- C6: a NaN or Infinite value has its width suffix forced empty
regardless of source width; a Finite value whose magnitude is exactly a
64-bit unsigned integer renders as the optional sign, the decimal
digits, a literal dot, and the width suffix; in particular the double
`2.0` formats as `2.` and a half-float NaN formats without its `f16`
suffix. -/
theorem C6_float_display :
    (∀ w : FloatWidth, formatFloat w FloatVal.nan = "nan") ∧
    (∀ (w : FloatWidth) (neg : Bool),
       formatFloat w (FloatVal.infinite neg) = (if neg then "-" else "") ++ "inf") ∧
    (∀ (w : FloatWidth) (neg : Bool) (mag : Nat),
       formatFloat w (FloatVal.finiteInt neg mag) =
         (if neg then "-" else "") ++ decimal mag ++ "." ++ suffixFor w) ∧
    formatFloat FloatWidth.double (FloatVal.finiteInt false 2) = "2." ∧
    formatFloat FloatWidth.half FloatVal.nan = "nan" := by
  refine ⟨?_, ?_, ?_, rfl, rfl⟩
  · intro w; cases w <;> rfl
  · intro w neg; cases w <;> cases neg <;> rfl
  · intro w neg mag; cases w <;> simp [formatFloat, isNanOrInfinite, suffixFor]

/-- C3 (code bug): on the 4-byte UTF-8 encoding of U+1F600 the decoder
does emit the correct surrogate pair `😀` (high surrogate
`(cp>>10)+0xD7C0 = D83D`, low `(cp%0x400)+0xDC00 = DE00`), but the loop
never deducts the three consumed continuation bytes from its counter
(`n -= charsNeeded - 1` of upstream tinycbor is missing), keeps
iterating, and reads past the end of the 4-byte buffer; at the whole
formatter the string therefore does not format as `"😀"`. -/
theorem C3_surrogate_pair_bug :
    utf8EscapedDump [0xF0, 0x9F, 0x98, 0x80] 4 = DumpResult.oob "\\uD83D\\uDE00" ∧
    value_to_pretty (CborValue.textString [0xF0, 0x9F, 0x98, 0x80]) =
      ("\"\\uD83D\\uDE00", some CborErr.oobRead) := by
  exact ⟨rfl, rfl⟩

/-- C9: in the recursive-container case, a failure of entering the
container or of formatting its contents copies the recursed cursor's
`ptr` into the outer cursor (leaving its other fields alone) before the
error is returned, while a failure of leaving the container returns the
error with the outer cursor untouched. -/
theorem C9_cursor_sync :
    ∀ (it : CborIt) (enter : CborIt × Option CborErr)
      (walk : CborIt → CborIt × Option CborErr)
      (leave : CborIt → CborIt → Option CborErr × CborIt),
      (∀ r e, enter = (r, some e) →
        container_case it enter walk leave = ({ it with ptr := r.ptr }, some e)) ∧
      (∀ r r2 e, enter = (r, none) → walk r = (r2, some e) →
        container_case it enter walk leave = ({ it with ptr := r2.ptr }, some e)) ∧
      (∀ r r2 e it2, enter = (r, none) → walk r = (r2, none) → leave it r2 = (some e, it2) →
        container_case it enter walk leave = (it, some e)) := by
  intro it enter walk leave
  refine ⟨?_, ?_, ?_⟩
  · intro r e h; subst h; rfl
  · intro r r2 e h1 h2; subst h1; simp [container_case, h2]
  · intro r r2 e it2 h1 h2 h3; subst h1; simp [container_case, h2, h3]

/-- Witness for C9 at a concrete failing `enter`: the outer cursor's
`ptr` takes the recursed cursor's value `7`, its other field stays. -/
theorem C9_witness :
    container_case ⟨1, 2⟩ (⟨7, 9⟩, some CborErr.io)
      (fun c => (c, none)) (fun a _ => (none, a)) = (⟨7, 2⟩, some CborErr.io) :=
  (C9_cursor_sync ⟨1, 2⟩ (⟨7, 9⟩, some CborErr.io)
    (fun c => (c, none)) (fun a _ => (none, a))).1 ⟨7, 9⟩ CborErr.io rfl

/-- C1 counterexample: the claim's half-open intervals are wrong at
both right endpoints.  The code accepts `0xBF` as a continuation byte
(`(0xBF & 0xC0) == 0x80`) although the claim's `[0x80,0xBF)` excludes
it, and classifies `0xDF` as a 2-byte lead although the claim's
`[0xC2,0xDF)` leaves it unclassified. -/
theorem C1_counterexample : ¬ C1ClaimStated := by
  intro h
  have h2 := (h.2.2.2.2.2.2 0xBF (by decide)).mp (by decide)
  exact absurd h2 (by decide)

/-- C1 as amended: the intervals are right-closed — a lead in
`[0xC2,0xDF]` selects the 2-byte form with minimum `0x80`, `[0xE0,0xEF]`
the 3-byte form with minimum `0x800`, `[0xF0,0xF4]` the 4-byte form with
minimum `0x10000`, a lead `≤ 0xC1` or `≥ 0xF5` is invalid (causing an
`InvalidUtf8` failure of the dump), and a continuation byte is accepted
exactly when it lies in `[0x80,0xBF]`, anything else causing an
`InvalidUtf8` failure. -/
theorem C1_lead_classification :
    (∀ uc : Nat, uc < 256 → (0x80 ≤ uc ∧ uc ≤ 0xC1) → classifyLead uc = none) ∧
    (∀ uc : Nat, uc < 256 → (0xC2 ≤ uc ∧ uc ≤ 0xDF) → classifyLead uc = some (2, 0x80, uc &&& 0x1F)) ∧
    (∀ uc : Nat, uc < 256 → (0xE0 ≤ uc ∧ uc < 0xF0) → classifyLead uc = some (3, 0x800, uc &&& 0x0F)) ∧
    (∀ uc : Nat, uc < 256 → (0xF0 ≤ uc ∧ uc < 0xF5) → classifyLead uc = some (4, 0x10000, uc &&& 0x07)) ∧
    (∀ uc : Nat, uc < 256 → 0xF5 ≤ uc → classifyLead uc = none) ∧
    (∀ uc : Nat, uc < 256 → (0x80 ≤ uc ∧ (classifyLead uc).isSome = true) →
       (0xC2 ≤ uc ∧ uc ≤ 0xDF) ∨ (0xE0 ≤ uc ∧ uc < 0xF0) ∨ (0xF0 ≤ uc ∧ uc < 0xF5)) ∧
    (∀ b : Nat, b < 256 → (contOk b = true ↔ 0x80 ≤ b ∧ b ≤ 0xBF)) ∧
    (∀ uc : Nat, uc < 256 → (0x80 ≤ uc ∧ classifyLead uc = none) →
       utf8EscapedDump [uc] 1 = DumpResult.invalidUtf8 "") ∧
    (∀ b : Nat, b < 256 → contOk b = false →
       utf8EscapedDump [0xC2, b] 2 = DumpResult.invalidUtf8 "") := by
  refine ⟨?_, ?_, ?_, ?_, ?_, ?_, ?_, ?_, ?_⟩ <;> decide

/-- Witness for C1 at the two endpoint bytes: `0xDF` is a 2-byte lead
and `0xBF` is an accepted continuation byte. -/
theorem C1_witness :
    classifyLead 0xDF = some (2, 0x80, 0xDF &&& 0x1F) ∧ contOk 0xBF = true :=
  ⟨C1_lead_classification.2.1 0xDF (by decide) (by decide),
   (C1_lead_classification.2.2.2.2.2.2.1 0xBF (by decide)).mpr (by decide)⟩

/-- When every element of the list formats without error, the array
walker writes `comma` before the first element and `", "` before every
further one, and succeeds. -/
theorem container_to_pretty_all_ok (l : List CborValue) :
    (∀ v ∈ l, (value_to_pretty v).2 = none) → ∀ comma : String,
      container_to_pretty comma l =
        ((if l.isEmpty then "" else
            comma ++ specCommaSeparated (l.map fun v => (value_to_pretty v).1)), none) := by
  induction l with
  | nil => intro _ comma; rfl
  | cons v vs ih =>
    intro h comma
    have hv : (value_to_pretty v).2 = none := h v (List.mem_cons_self v vs)
    have ihv := ih (fun w hw => h w (List.mem_cons_of_mem v hw)) ", "
    simp only [container_to_pretty]
    rcases hval : value_to_pretty v with ⟨s, e⟩
    rw [hval] at hv
    subst hv
    rw [ihv]
    cases vs with
    | nil => simp [specCommaSeparated, hval, String.append_assoc]
    | cons w ws =>
      simp only [List.isEmpty_cons, if_neg Bool.false_ne_true]
      simp [specCommaSeparated, hval, String.append_assoc]

/-- When every key and value of the pair list formats without error,
the map walker writes `comma` before the first entry, `": "` between
each key and its value, and `", "` before every further entry. -/
theorem container_to_pretty_map_all_ok (l : List (CborValue × CborValue)) :
    (∀ p ∈ l, (value_to_pretty p.1).2 = none ∧ (value_to_pretty p.2).2 = none) →
    ∀ comma : String,
      container_to_pretty_map comma l =
        ((if l.isEmpty then "" else
            comma ++ specCommaSeparated
              (l.map fun p => (value_to_pretty p.1).1 ++ ": " ++ (value_to_pretty p.2).1)), none) := by
  induction l with
  | nil => intro _ comma; rfl
  | cons p ps ih =>
    intro h comma
    obtain ⟨k, v⟩ := p
    have hk : (value_to_pretty k).2 = none := (h (k, v) (List.mem_cons_self _ ps)).1
    have hv : (value_to_pretty v).2 = none := (h (k, v) (List.mem_cons_self _ ps)).2
    have ihp := ih (fun q hq => h q (List.mem_cons_of_mem _ hq)) ", "
    simp only [container_to_pretty_map]
    rcases hkval : value_to_pretty k with ⟨sk, ek⟩
    rcases hvval : value_to_pretty v with ⟨sv, ev⟩
    rw [hkval] at hk
    rw [hvval] at hv
    subst hk
    subst hv
    rw [ihp]
    cases ps with
    | nil => simp [specCommaSeparated, hkval, hvval, String.append_assoc]
    | cons q qs =>
      simp only [List.isEmpty_cons, if_neg Bool.false_ne_true]
      simp [specCommaSeparated, hkval, hvval, String.append_assoc]

/-- C5 counterexample: an indefinite array of the unsigned integers 1
and 2 does not format as `_ [1, 2]` — the code writes the `_ ` marker
after the opening bracket, not before it. -/
theorem C5_counterexample :
    value_to_pretty (CborValue.array true [CborValue.unsignedInt 1, CborValue.unsignedInt 2]) ≠
      ("_ [1, 2]", none) := by
  decide

/-- C5 as amended: the output grammar is the opening bracket, then the
`_ ` marker for indefinite-length containers, then the elements with
`", "` before every element except the first (and `": "` between each
map key and its value), then the matching closing bracket; concretely
a definite array of 1, 2 formats as `[1, 2]`, the two-pair map as
`{1: "a", 2: "b"}`, and an indefinite array of 1, 2 as `[_ 1, 2]`. -/
theorem C5_container_grammar :
    (∀ (indefinite : Bool) (elems : List CborValue),
       (∀ v ∈ elems, (value_to_pretty v).2 = none) →
       value_to_pretty (CborValue.array indefinite elems) =
         ("[" ++ (if indefinite then "_ " else "") ++
            specCommaSeparated (elems.map fun v => (value_to_pretty v).1) ++ "]", none)) ∧
    (∀ (indefinite : Bool) (pairs : List (CborValue × CborValue)),
       (∀ p ∈ pairs, (value_to_pretty p.1).2 = none ∧ (value_to_pretty p.2).2 = none) →
       value_to_pretty (CborValue.map indefinite pairs) =
         ("\x7b" ++ (if indefinite then "_ " else "") ++
            specCommaSeparated
              (pairs.map fun p => (value_to_pretty p.1).1 ++ ": " ++ (value_to_pretty p.2).1) ++
            "\x7d", none)) ∧
    value_to_pretty (CborValue.array false [CborValue.unsignedInt 1, CborValue.unsignedInt 2]) =
      ("[1, 2]", none) ∧
    value_to_pretty (CborValue.map false
        [(CborValue.unsignedInt 1, CborValue.textString [0x61]),
         (CborValue.unsignedInt 2, CborValue.textString [0x62])]) =
      ("\x7b1: \"a\", 2: \"b\"\x7d", none) ∧
    value_to_pretty (CborValue.array true [CborValue.unsignedInt 1, CborValue.unsignedInt 2]) =
      ("[_ 1, 2]", none) := by
  refine ⟨?_, ?_, rfl, rfl, rfl⟩
  · intro indefinite elems h
    simp only [value_to_pretty]
    rw [container_to_pretty_all_ok elems h ""]
    cases elems with
    | nil => cases indefinite <;> simp [specCommaSeparated]
    | cons v vs => cases indefinite <;> simp [String.append_assoc]
  · intro indefinite pairs h
    simp only [value_to_pretty]
    rw [container_to_pretty_map_all_ok pairs h ""]
    cases pairs with
    | nil => cases indefinite <;> simp [specCommaSeparated]
    | cons p ps => cases indefinite <;> simp [String.append_assoc]

/-- Witness for C5 at a concrete indefinite array, discharging the
all-elements-succeed hypothesis at `[7]`. -/
theorem C5_witness :
    value_to_pretty (CborValue.array true [CborValue.unsignedInt 7]) =
      ("[" ++ "_ " ++
         specCommaSeparated [(value_to_pretty (CborValue.unsignedInt 7)).1] ++ "]", none) := by
  have h := C5_container_grammar.1 true [CborValue.unsignedInt 7] (by decide)
  simpa using h

/-- The trace of `hexDumpT` holds only write events, never a free. -/
theorem hexDumpT_count_free (sink : Nat → Bool) (bs : List Nat) :
    ∀ idx, ((hexDumpT sink idx bs).1).count HEv.free = 0 := by
  induction bs with
  | nil => intro idx; rfl
  | cons b bs ih =>
    intro idx
    by_cases h : sink idx
    · rcases hr : hexDumpT sink (idx + 1) bs with ⟨t, idx2, ok⟩
      have ih2 := ih (idx + 1)
      rw [hr] at ih2
      simp [hexDumpT, h, hr, List.count_cons, ih2]
    · simp [hexDumpT, h]

/-- C8: whenever the duplication succeeded, the byte-string and
text-string handlers emit exactly one `free` of the duplicated buffer,
for every sink behavior and — for the text handler — every outcome of
the UTF-8 dump: success, `InvalidUtf8` failure and write failure
alike. -/
theorem C8_buffer_release :
    ∀ (sink : Nat → Bool) (buffer : List Nat) (dump : String × Option CborErr),
      ((byte_string_case sink (Except.ok buffer)).1).count HEv.free = 1 ∧
      ((text_string_case sink (Except.ok buffer) dump).1).count HEv.free = 1 := by
  intro sink buffer dump
  constructor
  · rcases hr : hexDumpT sink 1 buffer with ⟨t, idx2, ok2⟩
    have hfree := hexDumpT_count_free sink buffer 1
    rw [hr] at hfree
    by_cases h1 : sink 0 <;> by_cases h3 : sink idx2 <;> cases ok2 <;>
      simp [byte_string_case, h1, h3, hr, List.count_cons, List.count_append, hfree]
  · rcases dump with ⟨ds, derr⟩
    by_cases h1 : sink 0 <;> by_cases h3 : sink 1 <;> cases derr <;>
      simp [text_string_case, h1, h3, List.count_cons, List.count_append]

mutual

/-- An `UnknownType` error can only arise from a value containing the
`Invalid` type: every other handler either succeeds or fails with a
different error. -/
theorem unknown_from_invalid : ∀ v : CborValue,
    (value_to_pretty v).2 = some CborErr.unknownType → containsInvalid v = true
  | CborValue.unsignedInt _, h => by simp [value_to_pretty] at h
  | CborValue.negativeInt raw, h => by
    simp only [value_to_pretty] at h
    split at h <;> simp at h
  | CborValue.byteString bs, h => by simp [value_to_pretty] at h
  | CborValue.textString bs, h => by
    simp only [value_to_pretty] at h
    split at h <;> simp at h
  | CborValue.array indefinite elems, h => by
    simp only [value_to_pretty] at h
    rcases hw : container_to_pretty "" elems with ⟨s, e⟩
    rw [hw] at h
    cases e with
    | none => simp at h
    | some err =>
      simp at h
      have hl := unknown_from_invalid_list "" elems (by rw [hw]; simp [h])
      simpa [containsInvalid] using hl
  | CborValue.map indefinite pairs, h => by
    simp only [value_to_pretty] at h
    rcases hw : container_to_pretty_map "" pairs with ⟨s, e⟩
    rw [hw] at h
    cases e with
    | none => simp at h
    | some err =>
      simp at h
      have hl := unknown_from_invalid_pairs "" pairs (by rw [hw]; simp [h])
      simpa [containsInvalid] using hl
  | CborValue.tag t inner, h => by
    simp only [value_to_pretty] at h
    rcases hw : value_to_pretty inner with ⟨s, e⟩
    rw [hw] at h
    cases e with
    | none => simp at h
    | some err =>
      simp at h
      have hi := unknown_from_invalid inner (by rw [hw]; simp [h])
      simpa [containsInvalid] using hi
  | CborValue.simple n, h => by simp [value_to_pretty] at h
  | CborValue.boolean b, h => by simp [value_to_pretty] at h
  | CborValue.null, h => by simp [value_to_pretty] at h
  | CborValue.undefined, h => by simp [value_to_pretty] at h
  | CborValue.float w fv, h => by simp [value_to_pretty] at h
  | CborValue.invalid, _ => rfl

theorem unknown_from_invalid_list : ∀ (comma : String) (l : List CborValue),
    (container_to_pretty comma l).2 = some CborErr.unknownType → containsInvalidList l = true
  | _, [], h => by simp [container_to_pretty] at h
  | comma, v :: vs, h => by
    simp only [container_to_pretty] at h
    rcases hv : value_to_pretty v with ⟨s, e⟩
    rw [hv] at h
    cases e with
    | some err =>
      simp at h
      have hi := unknown_from_invalid v (by rw [hv]; simp [h])
      simp [containsInvalidList, hi]
    | none =>
      rcases hr : container_to_pretty ", " vs with ⟨s2, e2⟩
      rw [hr] at h
      simp at h
      have hl := unknown_from_invalid_list ", " vs (by rw [hr]; simp [h])
      simp [containsInvalidList, hl]

theorem unknown_from_invalid_pairs : ∀ (comma : String) (l : List (CborValue × CborValue)),
    (container_to_pretty_map comma l).2 = some CborErr.unknownType → containsInvalidPairs l = true
  | _, [], h => by simp [container_to_pretty_map] at h
  | comma, (k, v) :: ps, h => by
    simp only [container_to_pretty_map] at h
    rcases hk : value_to_pretty k with ⟨sk, ek⟩
    rw [hk] at h
    cases ek with
    | some err =>
      simp at h
      have hi := unknown_from_invalid k (by rw [hk]; simp [h])
      simp [containsInvalidPairs, hi]
    | none =>
      rcases hv : value_to_pretty v with ⟨sv, ev⟩
      rw [hv] at h
      cases ev with
      | some err =>
        simp at h
        have hi := unknown_from_invalid v (by rw [hv]; simp [h])
        simp [containsInvalidPairs, hi]
      | none =>
        rcases hr : container_to_pretty_map ", " ps with ⟨s2, e2⟩
        rw [hr] at h
        simp at h
        have hl := unknown_from_invalid_pairs ", " ps (by rw [hr]; simp [h])
        simp [containsInvalidPairs, hl]

end

/-- C7: the `Invalid` type handler emits the literal `invalid` and then
fails with `UnknownType`; and it is the only source of that error — a
value free of the `Invalid` type never produces `UnknownType`, so no
other handler emits success-path output before deliberately raising
a failure. -/
theorem C7_invalid_type :
    value_to_pretty CborValue.invalid = ("invalid", some CborErr.unknownType) ∧
    ∀ v : CborValue, containsInvalid v = false →
      (value_to_pretty v).2 ≠ some CborErr.unknownType := by
  refine ⟨rfl, ?_⟩
  intro v h hcon
  have ht := unknown_from_invalid v hcon
  rw [ht] at h
  simp at h

/-- Witness for C7 at a concrete invalid-free value. -/
theorem C7_witness : (value_to_pretty CborValue.null).2 ≠ some CborErr.unknownType :=
  C7_invalid_type.2 CborValue.null rfl

/-- The `uint32_t` idiom `uc - 0xd800U < 2048U` tests exactly for the
surrogate range, for any code point far below the wrap-around. -/
theorem surrogateHit_iff (uc : Nat) (h : uc < 2147483648) :
    surrogateHit uc = true ↔ 0xD800 ≤ uc ∧ uc < 0xE000 := by
  simp only [surrogateHit, decide_eq_true_eq]
  omega

/-- The rebuilt code point is bounded by the available bits. -/
theorem reconstruct_lt : ∀ (bs : List Nat) (uc0 : Nat),
    reconstruct uc0 bs < (uc0 + 1) * 64 ^ bs.length := by
  intro bs
  induction bs with
  | nil => intro uc0; simp [reconstruct]
  | cons b bs ih =>
    intro uc0
    have hb : b &&& 63 ≤ 63 := Nat.and_le_right
    calc reconstruct uc0 (b :: bs) = reconstruct (uc0 * 64 + (b &&& 0x3F)) bs := by
          simp [reconstruct]
      _ < (uc0 * 64 + (b &&& 0x3F) + 1) * 64 ^ bs.length := ih _
      _ ≤ ((uc0 + 1) * 64) * 64 ^ bs.length := Nat.mul_le_mul_right _ (by omega)
      _ = (uc0 + 1) * 64 ^ (b :: bs).length := by
          simp [List.length_cons, pow_succ]; ring

/-- `readConts` over exactly the bytes following a prefix: it succeeds
with the rebuilt code point when every byte passes the continuation
test, and fails at the first byte that does not. -/
theorem readConts_exact : ∀ (rest : List Nat) (pre : List Nat) (uc0 : Nat),
    readConts (pre ++ rest) pre.length rest.length uc0 =
      (if ∀ b ∈ rest, contOk b = true then
         ContRes.ok (reconstruct uc0 rest) (pre.length + rest.length)
       else ContRes.bad) := by
  intro rest
  induction rest with
  | nil => intro pre uc0; simp [readConts, reconstruct]
  | cons b rest2 ih =>
    intro pre uc0
    have hget : (pre ++ b :: rest2)[pre.length]? = some b := by
      rw [List.getElem?_append_right (Nat.le_refl pre.length)]
      simp
    simp only [List.length_cons, readConts, hget]
    by_cases hb : contOk b = true
    · rw [if_pos hb]
      have ih2 := ih (pre ++ [b]) (uc0 * 64 + (b &&& 0x3F))
      rw [List.append_assoc] at ih2
      simp only [List.singleton_append, List.length_append, List.length_singleton] at ih2
      rw [ih2]
      by_cases hall : ∀ x ∈ rest2, contOk x = true
      · rw [if_pos hall, if_pos (by simpa [hb] using hall)]
        have hrec : reconstruct (uc0 * 64 + (b &&& 0x3F)) rest2 = reconstruct uc0 (b :: rest2) := by
          simp [reconstruct]
        rw [hrec]
        congr 1
        omega
      · rw [if_neg hall, if_neg (by intro hc; exact hall fun x hx => hc x (List.mem_cons_of_mem b hx))]
    · rw [if_neg hb, if_neg (by intro hc; exact hb (hc b (List.mem_cons_self b rest2)))]

/-- Once the read position has passed the end of the buffer, the next
loop iteration dereferences out of bounds. -/
theorem loop_past_end (buffer : List Nat) (pos n : Nat) (acc : String)
    (hpos : buffer.length ≤ pos) (hn : n ≠ 0) :
    utf8Loop buffer pos n acc = DumpResult.oob acc := by
  cases n with
  | zero => exact absurd rfl hn
  | succ m =>
    have hnone : buffer[pos]? = none := List.getElem?_eq_none hpos
    simp [utf8Loop, hnone]

/-- C2 counterexample: on the text string `E0 6F 80` (a 3-byte lead
followed by a byte outside `[0x80,0xBF]`) the escaper fails with
`InvalidUtf8`, yet none of the claim's listed causes holds: the input
does not end early, and no code point is reconstructed (let alone an
overlong, surrogate or out-of-range one) — the claim's "exactly when"
omits the invalid-continuation-byte cause. -/
theorem C2_counterexample : ¬ C2ClaimStated := by
  intro h
  have h2 := h 0xE0 [0x6F, 0x80] 3 0x800 0 (by norm_num) (by decide) (by decide) (by decide)
  have h3 := h2.mp (by decide)
  rcases h3 with h3 | ⟨h4, _⟩
  · exact absurd h3 (by decide)
  · exact absurd (h4 0x6F (by simp)) (by decide)

/-- C2 as amended: on a text string consisting of one (possibly
truncated) multi-byte sequence, the escaper fails with `InvalidUtf8`
exactly when the input ends before the sequence's continuation bytes
are consumed, or some continuation byte lies outside `[0x80,0xBF]`, or
the reconstructed code point is below its form's minimum (overlong),
lies in the surrogate range `[0xD800,0xDFFF]`, or exceeds `0x10FFFF`;
and on any `InvalidUtf8` failure the text-string handler emits the
opening quote and the escaper's partial output but no closing quote. -/
theorem C2_invalid_utf8_conditions :
    (∀ (lead : Nat) (rest : List Nat) (k minUc uc0 : Nat),
      lead < 256 → (∀ b ∈ rest, b < 256) →
      classifyLead lead = some (k, minUc, uc0) →
      rest.length + 1 ≤ k →
      (isInvalidUtf8 (utf8EscapedDump (lead :: rest) (rest.length + 1)) = true ↔
        (rest.length < k - 1 ∨
         (∃ b ∈ rest, contOk b = false) ∨
         ((∀ b ∈ rest, contOk b = true) ∧
          (reconstruct uc0 rest < minUc ∨
           (0xD800 ≤ reconstruct uc0 rest ∧ reconstruct uc0 rest < 0xE000) ∨
           0x10FFFF < reconstruct uc0 rest))))) ∧
    (∀ (bs : List Nat) (s : String),
      utf8EscapedDump bs bs.length = DumpResult.invalidUtf8 s →
      value_to_pretty (CborValue.textString bs) =
        ("\"" ++ s, some CborErr.invalidUtf8TextString)) := by
  constructor
  · intro lead rest k minUc uc0 hlead hbytes hcl hlen
    have hfacts : 0xC2 ≤ lead ∧ 2 ≤ k ∧ k ≤ 4 ∧ uc0 ≤ 31 := by
      have hcl2 := hcl
      simp only [classifyLead] at hcl2
      split_ifs at hcl2 with h1 h2 h3 h4 <;>
        simp only [Option.some_inj, Prod.mk.injEq, reduceCtorEq] at hcl2
      · obtain ⟨hk, hm, hu⟩ := hcl2
        exact ⟨by omega, by omega, by omega, le_trans (hu ▸ Nat.and_le_right) (by norm_num)⟩
      · obtain ⟨hk, hm, hu⟩ := hcl2
        exact ⟨by omega, by omega, by omega, le_trans (hu ▸ Nat.and_le_right) (by norm_num)⟩
      · obtain ⟨hk, hm, hu⟩ := hcl2
        exact ⟨by omega, by omega, by omega, le_trans (hu ▸ Nat.and_le_right) (by norm_num)⟩
    obtain ⟨hlge, hk2, hk4, huc0⟩ := hfacts
    have hnotlt : ¬ lead < 0x80 := by omega
    by_cases htr : rest.length < k - 1
    · have hdump : utf8EscapedDump (lead :: rest) (rest.length + 1) = DumpResult.invalidUtf8 "" := by
        simp [utf8EscapedDump, utf8Loop, hcl, hnotlt, htr]
      rw [hdump]
      exact iff_of_true rfl (Or.inl htr)
    · have hreq : rest.length = k - 1 := by omega
      have hk1 : k - 1 = rest.length := hreq.symm
      have hrc := readConts_exact rest [lead] uc0
      rw [List.singleton_append] at hrc
      simp only [List.length_singleton] at hrc
      by_cases hcont : ∀ b ∈ rest, contOk b = true
      · rw [if_pos hcont] at hrc
        set cp := reconstruct uc0 rest with hcp
        have hcpb : cp < 2147483648 := by
          have hb1 := reconstruct_lt rest uc0
          have hp : 64 ^ rest.length ≤ 64 ^ 3 := Nat.pow_le_pow_right (by norm_num) (by omega)
          have hb2 : (uc0 + 1) * 64 ^ rest.length ≤ 32 * 64 ^ 3 :=
            le_trans (Nat.mul_le_mul_right _ (by omega)) (Nat.mul_le_mul_left _ hp)
          have hval : (32 : Nat) * 64 ^ 3 = 8388608 := by norm_num
          omega
        by_cases hchk : cp < minUc ∨ surrogateHit cp = true ∨ cp > 0x10FFFF
        · have hdump : utf8EscapedDump (lead :: rest) (rest.length + 1) =
              DumpResult.invalidUtf8 "" := by
            simp [utf8EscapedDump, utf8Loop, hcl, hnotlt, htr, hk1, hrc, hchk]
          rw [hdump]
          refine iff_of_true rfl (Or.inr (Or.inr ⟨hcont, ?_⟩))
          rcases hchk with h | h | h
          · exact Or.inl h
          · exact Or.inr (Or.inl ((surrogateHit_iff cp hcpb).mp h))
          · exact Or.inr (Or.inr h)
        · have hloop : ∀ acc, utf8Loop (lead :: rest) (1 + rest.length) rest.length acc =
              DumpResult.oob acc := by
            intro acc
            apply loop_past_end
            · simp
              omega
            · omega
          have hfalse : isInvalidUtf8 (utf8EscapedDump (lead :: rest) (rest.length + 1)) = false := by
            rcases Nat.lt_or_ge 3 k with h4 | h4
            · simp [utf8EscapedDump, utf8Loop, hcl, hnotlt, htr, hk1, hrc, hchk,
                    hloop, isInvalidUtf8, h4]
            · simp [utf8EscapedDump, utf8Loop, hcl, hnotlt, htr, hk1, hrc, hchk,
                    hloop, isInvalidUtf8, Nat.not_lt.mpr h4]
          rw [hfalse]
          apply iff_of_false (by simp)
          rintro (h | ⟨b, hb, hbf⟩ | ⟨_, hcond⟩)
          · exact htr h
          · rw [hcont b hb] at hbf
            exact absurd hbf (by decide)
          · apply hchk
            rcases hcond with h | ⟨hs1, hs2⟩ | h
            · exact Or.inl h
            · exact Or.inr (Or.inl ((surrogateHit_iff cp hcpb).mpr ⟨hs1, hs2⟩))
            · exact Or.inr (Or.inr h)
      · rw [if_neg hcont] at hrc
        have hdump : utf8EscapedDump (lead :: rest) (rest.length + 1) =
            DumpResult.invalidUtf8 "" := by
          simp [utf8EscapedDump, utf8Loop, hcl, hnotlt, htr, hk1, hrc]
        rw [hdump]
        refine iff_of_true rfl (Or.inr (Or.inl ?_))
        push_neg at hcont
        simpa [Bool.not_eq_true] using hcont
  · intro bs s h
    simp [value_to_pretty, h]

/-- Witness for C2 at the overlong sequence `E0 80 80`: the escaper
rejects it, through the amended characterisation. -/
theorem C2_witness :
    isInvalidUtf8 (utf8EscapedDump (0xE0 :: [0x80, 0x80]) ([0x80, 0x80].length + 1)) = true := by
  apply (C2_invalid_utf8_conditions.1 0xE0 [0x80, 0x80] 3 0x800 0
    (by norm_num) (by decide) (by decide) (by decide)).mpr
  right; right
  exact ⟨by decide, Or.inl (by decide)⟩

end CborPretty
